import Mathlib

/-!
Verification model of `src/server.py` (Nova Offline Backend).

The server is a thin HTTP facade over three offline engines: an LM
Studio-compatible chat backend (HTTP), a faster-whisper transcription model,
and the Piper synthesis binary.  Each handler is embedded here as a pure
function over explicit per-request inputs:

* text is `List Char` (Python `str`), raw audio bytes are `List Nat`;
* the chat backend is a function `ChatRequest → BackendOutcome`, so one
  upstream HTTP call is one application of that function, and an exception,
  a status code, or a well/ill-formed JSON body are the constructor cases;
* the whisper call and the Piper subprocess are oracle outcomes supplied per
  request, with their success and failure constructors;
* filesystem effects that the endpoints perform (staging temp files,
  deleting them, probing `os.path.exists`) are carried as explicit result
  state next to the HTTP response value.

Python primitives used by the server (`str.strip`, `str.splitlines`,
`base64.b64encode`/`b64decode`, slice-based chunking) are modelled
character-for-character below.
-/

/-- Whitespace stripped by Python `str.strip()` (characters for which
`str.isspace()` holds; ASCII control whitespace plus the common Unicode
space characters). -/
def isPySpace (c : Char) : Bool :=
  c = ' ' || c = '\t' || c = '\n' || c = '\r' || c = '\x0b' || c = '\x0c' ||
  c = '\x1c' || c = '\x1d' || c = '\x1e' || c = '\x1f' || c = '\x85' ||
  c = '\u00A0' || c = '\u1680' || ('\u2000' ≤ c && c ≤ '\u200A') ||
  c = '\u2028' || c = '\u2029' || c = '\u202F' || c = '\u205F' || c = '\u3000'

/-- Python `s.strip()`: drop leading and trailing whitespace. -/
def pyStrip (s : List Char) : List Char :=
  ((s.dropWhile isPySpace).reverse.dropWhile isPySpace).reverse

/-- Line-break characters recognised by Python `str.splitlines`. -/
def lineBreakChar (c : Char) : Bool :=
  c = '\n' || c = '\r' || c = '\x0b' || c = '\x0c' ||
  c = '\x1c' || c = '\x1d' || c = '\x1e' || c = '\x85' ||
  c = '\u2028' || c = '\u2029'

/-- Worker for Python `str.splitlines`: `cur` is the reversed current line.
A `"\r\n"` pair counts as a single break; every break terminates a line and a
trailing fragment without a terminator still forms a line. -/
def splitlinesGo (cur : List Char) : List Char → List (List Char)
  | [] => [cur.reverse]
  | [c] => if lineBreakChar c then [cur.reverse] else [(c :: cur).reverse]
  | c :: d :: rest =>
    if c = '\r' && d = '\n' then
      cur.reverse :: (if rest.isEmpty then [] else splitlinesGo [] rest)
    else if lineBreakChar c then
      cur.reverse :: splitlinesGo [] (d :: rest)
    else
      splitlinesGo (c :: cur) (d :: rest)

/-- Python `s.splitlines()` (`"".splitlines() == []`). -/
def splitlines (s : List Char) : List (List Char) :=
  if s.isEmpty then [] else splitlinesGo [] s

/-- Python `sep.join(parts)` for list-of-characters strings. -/
def joinWith (sep : List Char) : List (List Char) → List Char
  | [] => []
  | [x] => x
  | x :: y :: rest => x ++ sep ++ joinWith sep (y :: rest)

example : splitlines "ab".toList = ["ab".toList] := by decide
example : splitlines "a\nb".toList = ["a".toList, "b".toList] := by decide
example : splitlines "a\r\nb".toList = ["a".toList, "b".toList] := by decide
example : splitlines "a\n".toList = ["a".toList] := by decide
example : splitlines "\n".toList = [[]] := by decide
example : splitlines "a\n\n".toList = ["a".toList, []] := by decide
example : splitlines "a\rb".toList = ["a".toList, "b".toList] := by decide
example : pyStrip "  a b\n".toList = "a b".toList := by decide

/-- The slicing loop `[l[i:i+sz] for i in range(0, len(l), sz)]`: the list cut
into contiguous pieces of `sz` elements, the last piece possibly shorter. -/
def chunked (sz : Nat) (l : List α) : List (List α) :=
  (List.range ((l.length + sz - 1) / sz)).map (fun k => (l.drop (sz * k)).take sz)

example : chunked 3 "abcdefgh".toList = ["abc".toList, "def".toList, "gh".toList] := by decide
example : chunked 3 ([] : List Char) = [] := by decide

/-! ## Server-sent-event framing (`_sse_format`, `server.py` lines 76-85) -/

/-- The `data:` lines of one SSE frame: `data.splitlines() or [""]`. -/
def dataLines (data : List Char) : List (List Char) :=
  match splitlines data with
  | [] => [[]]
  | ls => ls

/-- The lines of one SSE frame built by `_sse_format`: an optional
`event: <name>` line, one `data: <line>` line per payload line, and the
terminating blank line. -/
def sseLines (event : Option (List Char)) (data : List Char) : List (List Char) :=
  (match event with
   | some e => ["event: ".toList ++ e]
   | none => []) ++
  (dataLines data).map (fun l => "data: ".toList ++ l) ++ [[]]

/-- The byte content of one SSE frame: `"\n".join(out) + "\n"`. -/
def _sse_format (event : Option (List Char)) (data : List Char) : List Char :=
  joinWith ['\n'] (sseLines event data) ++ ['\n']

/-- What an SSE consumer recovers as one event's payload: the frame's
`data:` lines, with the prefix removed, joined by newlines. -/
def consumerPayload (lines : List (List Char)) : List Char :=
  joinWith ['\n']
    ((lines.filter (fun l => decide (l.take 6 = "data: ".toList))).map (fun l => l.drop 6))

/-- Payload a consumer recovers from the frame `_sse_format("token", piece)`. -/
def tokenPayloadOf (piece : List Char) : List Char :=
  consumerPayload (sseLines (some "token".toList) piece)

example : tokenPayloadOf "hi".toList = "hi".toList := by decide
example : tokenPayloadOf "a\nb".toList = "a\nb".toList := by decide
example : tokenPayloadOf "a\rb".toList = "a\nb".toList := by decide
example : tokenPayloadOf "ab\n".toList = "ab".toList := by decide
example : _sse_format (some "token".toList) "hi".toList =
    "event: token\ndata: hi\n\n".toList := by decide

/-! ## The LM Studio chat call (`server.py` lines 57-73, 101-118, 195-208) -/

/-- One message of the chat-completion wire format. -/
structure ChatMessage where
  role : List Char
  content : List Char
deriving DecidableEq

/-- The JSON payload both chat handlers post to `/v1/chat/completions`.
Sampling temperature is the rational value of the literal `0.2`. -/
structure ChatRequest where
  model : List Char
  messages : List ChatMessage
  temperature : ℚ
  stream : Bool
deriving DecidableEq

/-- The request built for prompt `P`: a single-turn conversation with `P` as
the sole (user) message, temperature `0.2`, non-streaming. -/
def mkChatRequest (prompt model : List Char) : ChatRequest :=
  { model := model
    messages := [{ role := "user".toList, content := prompt }]
    temperature := 2/10
    stream := false }

/-- Outcome of one `httpx` POST to the backend: either a raised exception
(transport failure, timeout), or a response carrying a status code and —
when the body is valid JSON of the expected shape — the first choice's
message content (`data["choices"][0]["message"]["content"]`). -/
inductive BackendOutcome where
  | resp (status : Nat) (content : Option (List Char))
  | exc (msg : List Char)
deriving DecidableEq

/-- Cause of a failed chat call, as caught by `except Exception` in the
handlers: a transport-level exception, a non-2xx status raised by
`raise_for_status`, or a body without the expected fields. -/
inductive LmError where
  | transport (msg : List Char)
  | httpStatus (status : Nat)
  | malformed
deriving DecidableEq

/-- Shared semantics of the upstream chat call in `/chat`, `/chat_stream`
and `/voice-chat`: build the single-turn payload, post it once, raise for a
non-2xx status, extract the first choice's message content, and trim it. -/
def lmReply (backend : ChatRequest → BackendOutcome) (prompt model : List Char) :
    Except LmError (List Char) :=
  match backend (mkChatRequest prompt model) with
  | .exc m => .error (.transport m)
  | .resp s content =>
    if 200 ≤ s ∧ s < 300 then
      match content with
      | some c => .ok (pyStrip c)
      | none => .error .malformed
    else .error (.httpStatus s)

/-- Success body of `/chat`: `{"provider": "lmstudio", "model": model, "text": text}`. -/
structure ChatOut where
  provider : List Char
  model : List Char
  text : List Char
deriving DecidableEq

/-- Result of `/chat`: the success record, or the `HTTPException(500, ...)`
carrying the cause. -/
inductive ChatResult where
  | ok (out : ChatOut)
  | httpError (status : Nat) (err : LmError)
deriving DecidableEq

/-- The `/chat` handler (`server.py` lines 57-73).  Besides the response
value it returns the list of upstream calls it performed, in order. -/
def chat (backend : ChatRequest → BackendOutcome) (prompt model : List Char) :
    ChatResult × List ChatRequest :=
  (match lmReply backend prompt model with
   | .ok t => .ok { provider := "lmstudio".toList, model := model, text := t }
   | .error e => .httpError 500 e,
   [mkChatRequest prompt model])

/-! ## The streaming endpoint `/chat_stream` (`server.py` lines 88-129) -/

/-- Chunk size of the simulated token stream (`CHUNK = 40`). -/
def CHUNK : Nat := 40

/-- The chunking loop `for i in range(0, len(text), CHUNK): text[i:i+CHUNK]`. -/
def chat_chunks (text : List Char) : List (List Char) :=
  chunked CHUNK text

/-- One event of the stream produced by `chat_stream`, identified by its
`event:` name; `token` carries the sliced piece passed to `_sse_format`,
`error` carries the failure cause, `end` carries the status reported in its
JSON data (`"error"` or `"complete"`). -/
inductive SEvent where
  | start
  | errorEv (err : LmError)
  | token (piece : List Char)
  | done
  | endEv (status : List Char)
deriving DecidableEq

/-- The event sequence the `gen()` generator of `/chat_stream` yields:
`start` first; then, the chat call having failed, `error` and `end`
(status `"error"`); or, it having succeeded, one `token` per 40-character
slice of the trimmed reply, then `done` and `end` (status `"complete"`). -/
def chat_stream_events (backend : ChatRequest → BackendOutcome)
    (prompt model : List Char) : List SEvent :=
  SEvent.start ::
    match lmReply backend prompt model with
    | .error e => [.errorEv e, .endEv "error".toList]
    | .ok text => (chat_chunks text).map .token ++ [.done, .endEv "complete".toList]

/-- The pieces carried by the `token` events of a stream, in emission order. -/
def tokenPieces (evs : List SEvent) : List (List Char) :=
  evs.filterMap (fun e => match e with | .token p => some p | _ => none)

/-! ## Transcription `/stt` (`server.py` lines 132-143) -/

/-- An uploaded file: its client-supplied name and raw bytes. -/
structure Upload where
  filename : List Char
  content : List Nat
deriving DecidableEq

/-- Outcome of `whisper.transcribe`: the segment texts in emission order
plus the detected language and duration, or a raised exception. -/
inductive TranscribeOutcome where
  | ok (segs : List (List Char)) (language : List Char) (duration : ℚ)
  | exc (msg : List Char)
deriving DecidableEq

/-- The name `tempfile.NamedTemporaryFile(suffix=file.filename)` produces:
a per-request fresh base (directory and random stem, supplied here as
`nonce`) followed by the upload's filename as suffix. -/
def sttTempName (nonce : List Char) (u : Upload) : List Char :=
  nonce ++ u.filename

/-- Success body of `/stt`. -/
structure SttOut where
  text : List Char
  language : List Char
  duration : ℚ
deriving DecidableEq

/-- Result of `/stt`: the JSON body, or the propagated engine exception. -/
inductive SttResult where
  | ok (out : SttOut)
  | engineError (msg : List Char)
deriving DecidableEq

/-- Filesystem state `/stt` leaves behind: the staged temp file's path and
whether `os.unlink` ran on it. -/
structure SttFs where
  tempPath : List Char
  deleted : Bool
deriving DecidableEq

/-- The `/stt` handler (`server.py` lines 132-143): stage the upload to a
temp file, transcribe, `os.unlink` the file (a line reached only when the
engine call returns), join the segment texts with no separator and trim. -/
def stt (u : Upload) (nonce : List Char) (engine : TranscribeOutcome) :
    SttResult × SttFs :=
  let path := sttTempName nonce u
  match engine with
  | .exc m => (.engineError m, { tempPath := path, deleted := false })
  | .ok segs lang dur =>
      (.ok { text := pyStrip segs.flatten, language := lang, duration := dur },
       { tempPath := path, deleted := true })

/-! ## Piper configuration and readiness (`server.py` lines 19-20, 46, 152, 211) -/

/-- Startup Piper configuration: `PIPER_BIN = shutil.which(...)` (an optional
resolved executable path) and `PIPER_VOICE` (a possibly empty path string). -/
structure PiperCfg where
  bin : Option (List Char)
  voice : List Char
deriving DecidableEq

/-- The readiness test `bool(PIPER_BIN) and bool(PIPER_VOICE) and
os.path.exists(PIPER_VOICE)`; `voiceExists` is the `os.path.exists` answer
at the moment of the request. -/
def piperOk (cfg : PiperCfg) (voiceExists : Bool) : Bool :=
  cfg.bin.isSome && !cfg.voice.isEmpty && voiceExists

/-- Outcome of the Piper subprocess run (plus reading its output file):
the WAV bytes it produced, or a failure (nonzero exit). -/
inductive SynthOutcome where
  | ok (wav : List Nat)
  | fail (msg : List Char)
deriving DecidableEq

/-- A call into one of the three external engines, recorded in order. -/
inductive EngineCall where
  | sttCall
  | chatCall (prompt : List Char)
  | synthCall (text : List Char)
deriving DecidableEq

/-! ## `/tts` (`server.py` lines 146-175) -/

/-- One step of the `wav_iter()` generator: handing a chunk of the WAV file
to the consumer, or the final `os.unlink` of the file. -/
inductive StreamStep where
  | yieldChunk (bytes : List Nat)
  | unlink
deriving DecidableEq

/-- The `wav_iter()` generator of `/tts`: read and yield `f.read(8192)`
blocks until the file is exhausted, then delete the file. -/
def wav_iter (content : List Nat) : List StreamStep :=
  (chunked 8192 content).map .yieldChunk ++ [.unlink]

/-- The chunks handed to the consumer by a stream, in order. -/
def yieldsOf (steps : List StreamStep) : List (List Nat) :=
  steps.filterMap (fun s => match s with | .yieldChunk b => some b | .unlink => none)

/-- Result of `/tts`: the 501 rejection, the 500 synthesis failure, or the
streamed `audio/wav` response. -/
inductive TtsResult where
  | notConfigured
  | synthFailed (msg : List Char)
  | audioStream (steps : List StreamStep)
deriving DecidableEq

/-- The `/tts` handler (`server.py` lines 146-175): reject with 501 when
Piper is not fully configured, else run the synthesizer and stream the
produced file.  Returns the response plus the engine calls made, in order. -/
def tts (cfg : PiperCfg) (voiceExists : Bool) (text : List Char)
    (synth : List Char → SynthOutcome) : TtsResult × List EngineCall :=
  if piperOk cfg voiceExists then
    match synth text with
    | .fail m => (.synthFailed m, [.synthCall text])
    | .ok wav => (.audioStream (wav_iter wav), [.synthCall text])
  else (.notConfigured, [])

/-! ## Base64 (`base64.b64encode` / `b64decode`, used at `server.py` line 218) -/

/-- The standard base64 alphabet. -/
def b64Alphabet : List Char :=
  "ABCDEFGHIJKLMNOPQRSTUVWXYZabcdefghijklmnopqrstuvwxyz0123456789+/".toList

/-- Character encoding a six-bit value. -/
def encChar (k : Nat) : Char :=
  b64Alphabet.getD k 'A'

/-- Index of a character in the base64 alphabet, if any. -/
def decChar (c : Char) : Option Nat :=
  let rec go : List Char → Option Nat
    | [] => none
    | d :: rest => if d = c then some 0 else (go rest).map (· + 1)
  go b64Alphabet

/-- `base64.b64encode` on a byte sequence: three bytes become four alphabet
characters; a trailing group of one or two bytes is padded with `=`. -/
def b64encode : List Nat → List Char
  | [] => []
  | [a] => [encChar (a / 4), encChar (a % 4 * 16), '=', '=']
  | [a, b] => [encChar (a / 4), encChar (a % 4 * 16 + b / 16), encChar (b % 16 * 4), '=']
  | a :: b :: c :: rest =>
      encChar (a / 4) :: encChar (a % 4 * 16 + b / 16) ::
      encChar (b % 16 * 4 + c / 64) :: encChar (c % 64) :: b64encode rest

/-- `base64.b64decode` on a padded base64 string: four characters become
three bytes; `=` padding in the final quartet yields one or two bytes. -/
def b64decode : List Char → Option (List Nat)
  | [] => some []
  | c0 :: c1 :: c2 :: c3 :: rest => do
      let s0 ← decChar c0
      let s1 ← decChar c1
      if c2 = '=' then
        some [s0 * 4 + s1 / 16]
      else do
        let s2 ← decChar c2
        if c3 = '=' then
          some [s0 * 4 + s1 / 16, s1 % 16 * 16 + s2 / 4]
        else do
          let s3 ← decChar c3
          let tail ← b64decode rest
          some ([s0 * 4 + s1 / 16, s1 % 16 * 16 + s2 / 4, s2 % 4 * 64 + s3] ++ tail)
  | _ => none

example : b64encode [77, 97, 110] = "TWFu".toList := by decide
example : b64encode [77, 97] = "TWE=".toList := by decide
example : b64encode [77] = "TQ==".toList := by decide
example : b64decode "TWFu".toList = some [77, 97, 110] := by decide
example : b64decode "TQ==".toList = some [77] := by decide

/-! ## `/voice-chat` (`server.py` lines 178-223) -/

/-- Success body of `/voice-chat`:
`{"text": reply, "mime": "audio/wav", "audio_base64": ..., "prompt": transcript}`. -/
structure VcOut where
  text : List Char
  mime : List Char
  audio_base64 : List Char
  prompt : List Char
deriving DecidableEq

/-- Result of `/voice-chat`: one error per stage, or the success body.  Each
error constructor carries nothing but that stage's cause. -/
inductive VcResult where
  | sttError (msg : List Char)
  | chatError (err : LmError)
  | notConfigured
  | synthError (msg : List Char)
  | success (out : VcOut)
deriving DecidableEq

/-- The `/voice-chat` handler (`server.py` lines 178-223): stage the upload
and transcribe it; join and trim the segment texts; run the chat call on the
transcript; check the Piper configuration; synthesize the reply and base64
encode the WAV bytes.  Returns the response plus the engine calls made, in
order. -/
def voice_chat (cfg : PiperCfg) (voiceExists : Bool) (sttE : TranscribeOutcome)
    (backend : ChatRequest → BackendOutcome) (model : List Char)
    (synth : List Char → SynthOutcome) : VcResult × List EngineCall :=
  match sttE with
  | .exc m => (.sttError m, [.sttCall])
  | .ok segs _lang _dur =>
    let user_text := pyStrip segs.flatten
    match lmReply backend user_text model with
    | .error e => (.chatError e, [.sttCall, .chatCall user_text])
    | .ok reply =>
      if piperOk cfg voiceExists then
        match synth reply with
        | .fail m =>
            (.synthError m, [.sttCall, .chatCall user_text, .synthCall reply])
        | .ok wav =>
            (.success { text := reply, mime := "audio/wav".toList,
                        audio_base64 := b64encode wav, prompt := user_text },
             [.sttCall, .chatCall user_text, .synthCall reply])
      else (.notConfigured, [.sttCall, .chatCall user_text])

/-! ## `/health` (`server.py` lines 34-54) -/

/-- Outcome of the bounded-timeout probe `httpx.get(LMSTUDIO_URL + "/v1/models")`. -/
inductive ProbeOutcome where
  | resp (status : Nat)
  | exc (msg : List Char)
deriving DecidableEq

/-- The fields of the `/health` status record that vary per request. -/
structure HealthReport where
  lm_ok : Bool
  lm_note : List Char
  whisper_ok : Bool
  piper_ok : Bool
deriving DecidableEq

/-- The `/health` handler (`server.py` lines 34-54): a total function — the
probe's exception is caught, reachability failure is data.  `lm_ok` is the
`status == 200` test, the note is `"ok"`, `"HTTP <code>"` or
`"error: <e>"`; `piper_ok` re-evaluates the readiness test; `whisper_ok` is
the constant `True`. -/
def health (probe : ProbeOutcome) (cfg : PiperCfg) (voiceExists : Bool) :
    HealthReport :=
  { lm_ok := match probe with | .resp s => s == 200 | .exc _ => false
    lm_note :=
      match probe with
      | .resp s => if s == 200 then "ok".toList else "HTTP ".toList ++ (Nat.repr s).toList
      | .exc m => "error: ".toList ++ m
    whisper_ok := true
    piper_ok := piperOk cfg voiceExists }

/-! ## Properties of the chunking loop -/

theorem chunked_nil (sz : Nat) : chunked sz ([] : List α) = [] := by
  have h0 : (0 + sz - 1) / sz = 0 := by
    rcases sz with _ | n
    · simp
    · exact Nat.div_eq_of_lt (by omega)
  simp only [chunked, List.length_nil, h0]
  rfl

theorem chunked_cons (sz : Nat) (hsz : 0 < sz) (l : List α) (hl : l ≠ []) :
    chunked sz l = l.take sz :: chunked sz (l.drop sz) := by
  have hlen : 0 < l.length := List.length_pos.mpr hl
  have hcount : (l.length + sz - 1) / sz = ((l.drop sz).length + sz - 1) / sz + 1 := by
    rw [List.length_drop]
    rcases le_or_lt l.length sz with h | h
    · have h1 : l.length - sz = 0 := by omega
      have e0 : (0 + sz - 1) / sz = 0 := Nat.div_eq_of_lt (by omega)
      have e1 : (l.length + sz - 1) / sz = 1 := by
        have := Nat.div_eq_of_lt_le (k := 1) (n := sz) (m := l.length + sz - 1)
          (by omega) (by omega)
        simpa using this
      rw [h1, e0, e1]
    · have h3 : l.length + sz - 1 = (l.length - 1) + sz := by omega
      have h2 : l.length - sz + sz - 1 = (l.length - 1 - sz) + sz := by omega
      have h4 : l.length - 1 = l.length - 1 - sz + sz := by omega
      rw [h3, Nat.add_div_right _ hsz, h2, Nat.add_div_right _ hsz]
      conv_lhs => rw [h4, Nat.add_div_right _ hsz]
  unfold chunked
  rw [hcount, List.range_succ_eq_map, List.map_cons, List.map_map]
  refine List.cons_eq_cons.mpr ⟨by simp, ?_⟩
  simp only [List.map_inj_left, List.mem_range, Function.comp_apply,
    Nat.succ_eq_add_one, List.drop_drop]
  intro a _
  have harg : sz + sz * a = sz * (a + 1) := by ring
  rw [harg]

theorem chunked_flatten (sz : Nat) (hsz : 0 < sz) (l : List α) :
    (chunked sz l).flatten = l := by
  by_cases h : l = []
  · subst h; rw [chunked_nil]; rfl
  · rw [chunked_cons sz hsz l h, List.flatten_cons,
      chunked_flatten sz hsz (l.drop sz), List.take_append_drop]
termination_by l.length
decreasing_by
  have : 0 < l.length := List.length_pos.mpr h
  rw [List.length_drop]; omega

theorem chunked_length (sz : Nat) (l : List α) :
    (chunked sz l).length = (l.length + sz - 1) / sz := by
  simp [chunked]

theorem chunked_mem_ne_nil (sz : Nat) (hsz : 0 < sz) (l : List α) :
    ∀ p ∈ chunked sz l, p ≠ [] := by
  by_cases h : l = []
  · subst h; rw [chunked_nil]; intro p hp; cases hp
  · rw [chunked_cons sz hsz l h]
    intro p hp
    rcases List.mem_cons.mp hp with rfl | hp
    · rw [Ne, List.take_eq_nil_iff]
      push_neg
      exact ⟨by omega, h⟩
    · exact chunked_mem_ne_nil sz hsz (l.drop sz) p hp
termination_by l.length
decreasing_by
  have : 0 < l.length := List.length_pos.mpr h
  rw [List.length_drop]; omega

theorem chunked_mem_length_le (sz : Nat) (hsz : 0 < sz) (l : List α) :
    ∀ p ∈ chunked sz l, p.length ≤ sz := by
  by_cases h : l = []
  · subst h; rw [chunked_nil]; intro p hp; cases hp
  · rw [chunked_cons sz hsz l h]
    intro p hp
    rcases List.mem_cons.mp hp with rfl | hp
    · rw [List.length_take]; omega
    · exact chunked_mem_length_le sz hsz (l.drop sz) p hp
termination_by l.length
decreasing_by
  have : 0 < l.length := List.length_pos.mpr h
  rw [List.length_drop]; omega

theorem chunked_eq_nil_iff (sz : Nat) (hsz : 0 < sz) (l : List α) :
    chunked sz l = [] ↔ l = [] := by
  constructor
  · intro h
    by_contra hl
    rw [chunked_cons sz hsz l hl] at h
    cases h
  · intro h; subst h; exact chunked_nil sz

theorem chunked_dropLast_length (sz : Nat) (hsz : 0 < sz) (l : List α) :
    ∀ p ∈ (chunked sz l).dropLast, p.length = sz := by
  by_cases h : l = []
  · subst h; rw [chunked_nil]; intro p hp; cases hp
  · rw [chunked_cons sz hsz l h]
    by_cases hd : l.drop sz = []
    · rw [hd, chunked_nil]
      intro p hp; cases hp
    · rw [List.dropLast_cons_of_ne_nil ((chunked_eq_nil_iff sz hsz _).not.mpr hd)]
      intro p hp
      rcases List.mem_cons.mp hp with rfl | hp
      · rw [List.length_take]
        have : sz < l.length := by
          by_contra hle
          exact hd (List.drop_eq_nil_of_le (by omega))
        omega
      · exact chunked_dropLast_length sz hsz (l.drop sz) p hp
termination_by l.length
decreasing_by
  have : 0 < l.length := List.length_pos.mpr h
  rw [List.length_drop]; omega

/-! ## Round-trip properties of the SSE framing -/

theorem joinWith_cons_of_ne_nil (sep x : List Char) (l : List (List Char))
    (hl : l ≠ []) : joinWith sep (x :: l) = x ++ sep ++ joinWith sep l := by
  cases l with
  | nil => cases hl rfl
  | cons y rest => rfl

theorem splitlinesGo_ne_nil (cur s : List Char) : splitlinesGo cur s ≠ [] := by
  induction cur, s using splitlinesGo.induct with
  | case1 cur => simp [splitlinesGo]
  | case2 cur c h => simp [splitlinesGo, h]
  | case3 cur c h => simp [splitlinesGo, h]
  | case4 cur c d rest h ih => simp [splitlinesGo, h]
  | case5 cur c d rest h hb ih => simp [splitlinesGo, h, hb]
  | case6 cur c d rest h hb ih => simpa [splitlinesGo, h, hb] using ih

theorem joinWith_splitlinesGo (cur s : List Char)
    (hb : ∀ c ∈ s, lineBreakChar c = true → c = '\n')
    (hl : s.getLast? ≠ some '\n') :
    joinWith ['\n'] (splitlinesGo cur s) = cur.reverse ++ s := by
  induction cur, s using splitlinesGo.induct with
  | case1 cur => simp [splitlinesGo, joinWith]
  | case2 cur c h =>
      have hc := hb c (by simp) h
      subst hc
      simp at hl
  | case3 cur c h =>
      simp [splitlinesGo, h, joinWith, List.reverse_cons]
  | case4 cur c d rest h ih =>
      have hcd : c = '\r' ∧ d = '\n' := by simpa using h
      obtain ⟨rfl, rfl⟩ := hcd
      have := hb '\r' (by simp) (by decide)
      exact absurd this (by decide)
  | case5 cur c d rest h hbrk ih =>
      have hc := hb c (by simp) hbrk
      subst hc
      have hrec : ∀ e ∈ d :: rest, lineBreakChar e = true → e = '\n' := by
        intro e he hbe
        exact hb e (List.mem_cons_of_mem _ he) hbe
      have hrl : (d :: rest).getLast? ≠ some '\n' := by
        rwa [List.getLast?_cons_cons] at hl
      rw [splitlinesGo, if_neg h, if_pos hbrk,
        joinWith_cons_of_ne_nil _ _ _ (splitlinesGo_ne_nil [] (d :: rest)),
        ih hrec hrl]
      simp
  | case6 cur c d rest h hbrk ih =>
      have hrec : ∀ e ∈ d :: rest, lineBreakChar e = true → e = '\n' := by
        intro e he hbe
        exact hb e (List.mem_cons_of_mem _ he) hbe
      have hrl : (d :: rest).getLast? ≠ some '\n' := by
        rwa [List.getLast?_cons_cons] at hl
      rw [splitlinesGo, if_neg (by simpa using h), if_neg (by simpa using hbrk),
        ih hrec hrl]
      simp

theorem dataLines_eq_splitlinesGo (s : List Char) (h : s ≠ []) :
    dataLines s = splitlinesGo [] s := by
  unfold dataLines splitlines
  rw [if_neg (by simpa [List.isEmpty_iff] using h)]
  cases hx : splitlinesGo [] s with
  | nil => exact absurd hx (splitlinesGo_ne_nil [] s)
  | cons a as => rfl

theorem joinWith_dataLines (s : List Char)
    (hb : ∀ c ∈ s, lineBreakChar c = true → c = '\n')
    (hl : s.getLast? ≠ some '\n') :
    joinWith ['\n'] (dataLines s) = s := by
  by_cases h : s = []
  · subst h; rfl
  · rw [dataLines_eq_splitlinesGo s h]
    simpa using joinWith_splitlinesGo [] s hb hl

theorem take6_dataPrefix (l : List Char) :
    ("data: ".toList ++ l).take 6 = "data: ".toList :=
  List.take_left' rfl

theorem drop6_dataPrefix (l : List Char) : ("data: ".toList ++ l).drop 6 = l :=
  List.drop_left' rfl

theorem tokenPayloadOf_eq_joinWith (piece : List Char) :
    tokenPayloadOf piece = joinWith ['\n'] (dataLines piece) := by
  unfold tokenPayloadOf consumerPayload sseLines
  rw [List.filter_append, List.filter_append]
  have h1 : List.filter (fun l => decide (l.take 6 = "data: ".toList))
      ["event: ".toList ++ "token".toList] = [] := by decide
  have h3 : List.filter (fun l => decide (l.take 6 = "data: ".toList))
      [([] : List Char)] = [] := by decide
  have h2 : List.filter (fun l => decide (l.take 6 = "data: ".toList))
      ((dataLines piece).map (fun l => "data: ".toList ++ l)) =
      (dataLines piece).map (fun l => "data: ".toList ++ l) := by
    rw [List.filter_eq_self]
    intro a ha
    obtain ⟨l, _, rfl⟩ := List.mem_map.mp ha
    simp [take6_dataPrefix]
  rw [h1, h3, h2]
  simp only [List.nil_append, List.append_nil, List.map_map]
  have hfun : ∀ l ∈ dataLines piece,
      ((fun l => List.drop 6 l) ∘ fun l => "data: ".toList ++ l) l = id l := by
    intro l _
    simp [drop6_dataPrefix]
  rw [List.map_congr_left hfun, List.map_id]

theorem tokenPayloadOf_eq_self (piece : List Char)
    (hb : ∀ c ∈ piece, lineBreakChar c = true → c = '\n')
    (hl : piece.getLast? ≠ some '\n') :
    tokenPayloadOf piece = piece := by
  rw [tokenPayloadOf_eq_joinWith]
  exact joinWith_dataLines piece hb hl

theorem head?_dropWhile_false (p : Char → Bool) (l : List Char) (a : Char)
    (h : (l.dropWhile p).head? = some a) : p a = false := by
  induction l with
  | nil => cases h
  | cons x xs ih =>
      by_cases hx : p x
      · rw [List.dropWhile_cons_of_pos hx] at h
        exact ih h
      · rw [List.dropWhile_cons_of_neg hx] at h
        cases h
        simpa using hx

theorem pyStrip_getLast?_not_space (s : List Char) (c : Char)
    (h : (pyStrip s).getLast? = some c) : isPySpace c = false := by
  unfold pyStrip at h
  rw [List.getLast?_reverse] at h
  exact head?_dropWhile_false _ _ _ h

theorem getLast?_drop_of_ne_nil (n : Nat) (l : List Char) (hd : l.drop n ≠ []) :
    (l.drop n).getLast? = l.getLast? := by
  obtain ⟨y, hy⟩ : ∃ y, (l.drop n).getLast? = some y := by
    cases hx : (l.drop n).getLast? with
    | none => exact absurd (List.getLast?_eq_none_iff.mp hx) hd
    | some y => exact ⟨y, rfl⟩
  rw [hy]
  conv_rhs => rw [← List.take_append_drop n l]
  rw [List.getLast?_append, hy]
  rfl

theorem map_tokenPayloadOf_chunked (l : List Char)
    (hb : ∀ c ∈ l, lineBreakChar c = true → c = '\n')
    (hl : l.getLast? ≠ some '\n')
    (hc : ∀ k, 40 * k + 39 < l.length → l[40 * k + 39]? ≠ some '\n') :
    (chunked 40 l).map tokenPayloadOf = chunked 40 l := by
  by_cases h : l = []
  · subst h; rw [chunked_nil]; rfl
  · rw [chunked_cons 40 (by omega) l h, List.map_cons]
    refine List.cons_eq_cons.mpr ⟨?_, ?_⟩
    · apply tokenPayloadOf_eq_self
      · exact fun c hcm hbc => hb c (List.take_subset 40 l hcm) hbc
      · rcases le_or_lt l.length 40 with h40 | h40
        · rw [List.take_of_length_le h40]; exact hl
        · have hne := hc 0 (by omega)
          rw [List.getLast?_eq_getElem?, List.length_take]
          have hmin : 40 ⊓ l.length - 1 = 39 := by omega
          rw [hmin, List.getElem?_take, if_pos (by omega)]
          simpa using hne
    · apply map_tokenPayloadOf_chunked (l.drop 40)
      · exact fun c hcm hbc => hb c (List.drop_subset 40 l hcm) hbc
      · by_cases hd : l.drop 40 = []
        · rw [hd]; simp
        · rw [getLast?_drop_of_ne_nil 40 l hd]; exact hl
      · intro k hk
        rw [List.getElem?_drop]
        have harg : 40 + (40 * k + 39) = 40 * (k + 1) + 39 := by ring
        rw [harg]
        apply hc (k + 1)
        rw [List.length_drop] at hk
        omega
termination_by l.length
decreasing_by
  have : 0 < l.length := List.length_pos.mpr h
  rw [List.length_drop]; omega

/-! ## Behaviour of the streaming endpoint -/

theorem lmReply_resp200 (backend : ChatRequest → BackendOutcome)
    (prompt model raw : List Char)
    (hok : backend (mkChatRequest prompt model) = .resp 200 (some raw)) :
    lmReply backend prompt model = .ok (pyStrip raw) := by
  unfold lmReply
  rw [hok]
  rfl

theorem chat_stream_events_of_resp200 (backend : ChatRequest → BackendOutcome)
    (prompt model raw : List Char)
    (hok : backend (mkChatRequest prompt model) = .resp 200 (some raw)) :
    chat_stream_events backend prompt model =
      .start :: (chat_chunks (pyStrip raw)).map .token
        ++ [.done, .endEv "complete".toList] := by
  unfold chat_stream_events
  rw [lmReply_resp200 backend prompt model raw hok]
  rfl

theorem tokenPieces_of_resp200 (backend : ChatRequest → BackendOutcome)
    (prompt model raw : List Char)
    (hok : backend (mkChatRequest prompt model) = .resp 200 (some raw)) :
    tokenPieces (chat_stream_events backend prompt model) =
      chat_chunks (pyStrip raw) := by
  rw [chat_stream_events_of_resp200 backend prompt model raw hok]
  simp only [tokenPieces, List.filterMap_cons, List.filterMap_append,
    List.filterMap_map]
  have hcomp :
      ((fun e => match e with | SEvent.token p => some p | _ => none) ∘ SEvent.token)
        = (some : List Char → Option (List Char)) := rfl
  rw [hcomp, List.filterMap_some]
  simp

theorem chat_chunks_eq_chunked (text : List Char) :
    chat_chunks text = chunked 40 text := rfl

theorem isPySpace_newline : isPySpace '\n' = true := by decide

theorem pyStrip_getLast?_ne_newline (s : List Char) :
    (pyStrip s).getLast? ≠ some '\n' := by
  intro h
  have := pyStrip_getLast?_not_space s '\n' h
  rw [isPySpace_newline] at this
  cases this

/-! ## Claim C1 -/

/-- C1, counterexample.  The claim asserts that for every reply string the
consumer-recovered `token` payloads concatenate, byte for byte, to the
trimmed reply.  It fails on the reply `"a\rb"`: `_sse_format` splits the
piece with `str.splitlines`, so the consumer recovers `"a\nb"` — the
carriage return is rewritten to a newline. -/
theorem c1_concat_counterexample :
    ((tokenPieces (chat_stream_events
        (fun _ => .resp 200 (some "a\rb".toList)) "p".toList "m".toList)).map
      tokenPayloadOf).flatten ≠ "a\rb".toList := by
  decide

/-- C1, amended: whenever the trimmed reply's only line-break characters are
`'\n'` and no `'\n'` sits at the final position of a full 40-character chunk,
concatenating the consumer-recovered payloads of the emitted `token` events
in emission order reproduces the trimmed reply exactly, and every recovered
payload has length at most 40, every non-final one exactly 40. -/
theorem c1_concat_amended (backend : ChatRequest → BackendOutcome)
    (prompt model raw : List Char)
    (hok : backend (mkChatRequest prompt model) = .resp 200 (some raw))
    (hb : ∀ c ∈ pyStrip raw, lineBreakChar c = true → c = '\n')
    (hc : ∀ k, 40 * k + 39 < (pyStrip raw).length →
      (pyStrip raw)[40 * k + 39]? ≠ some '\n') :
    ((tokenPieces (chat_stream_events backend prompt model)).map
        tokenPayloadOf).flatten = pyStrip raw ∧
    (∀ p ∈ (tokenPieces (chat_stream_events backend prompt model)).map
        tokenPayloadOf, p.length ≤ 40) ∧
    (∀ p ∈ ((tokenPieces (chat_stream_events backend prompt model)).map
        tokenPayloadOf).dropLast, p.length = 40) := by
  have htok := tokenPieces_of_resp200 backend prompt model raw hok
  have hmap := map_tokenPayloadOf_chunked (pyStrip raw) hb
    (pyStrip_getLast?_ne_newline raw) hc
  rw [htok, chat_chunks_eq_chunked, hmap]
  exact ⟨chunked_flatten 40 (by omega) (pyStrip raw),
    chunked_mem_length_le 40 (by omega) (pyStrip raw),
    chunked_dropLast_length 40 (by omega) (pyStrip raw)⟩

/-- C1, witness of the amended theorem on the reply `" hello world "`. -/
theorem c1_concat_witness :
    ((tokenPieces (chat_stream_events
        (fun _ => .resp 200 (some " hello world ".toList)) "hi".toList
        "m".toList)).map tokenPayloadOf).flatten = pyStrip " hello world ".toList ∧
    (∀ p ∈ (tokenPieces (chat_stream_events
        (fun _ => .resp 200 (some " hello world ".toList)) "hi".toList
        "m".toList)).map tokenPayloadOf, p.length ≤ 40) ∧
    (∀ p ∈ ((tokenPieces (chat_stream_events
        (fun _ => .resp 200 (some " hello world ".toList)) "hi".toList
        "m".toList)).map tokenPayloadOf).dropLast, p.length = 40) :=
  c1_concat_amended (fun _ => .resp 200 (some " hello world ".toList))
    "hi".toList "m".toList " hello world ".toList rfl (by decide)
    (by
      intro k hk
      rw [(by decide : (pyStrip " hello world ".toList).length = 11)] at hk
      omega)

/-! ## Claim C10 -/

/-- C10: on a successful backend call with reply `raw`, the stream carries
exactly `ceil(L / 40)` token events for `L` the trimmed reply's length, every
token piece but the last has length exactly 40, and when the trimmed reply is
empty the stream is exactly `start`, `done`, `end` (status `"complete"`) with
zero token events. -/
theorem c10_token_count (backend : ChatRequest → BackendOutcome)
    (prompt model raw : List Char)
    (hok : backend (mkChatRequest prompt model) = .resp 200 (some raw)) :
    (tokenPieces (chat_stream_events backend prompt model)).length
        = ((pyStrip raw).length + 39) / 40 ∧
    (∀ p ∈ (tokenPieces (chat_stream_events backend prompt model)).dropLast,
        p.length = 40) ∧
    (pyStrip raw = [] → chat_stream_events backend prompt model
        = [.start, .done, .endEv "complete".toList]) := by
  have htok := tokenPieces_of_resp200 backend prompt model raw hok
  refine ⟨?_, ?_, ?_⟩
  · rw [htok, chat_chunks_eq_chunked, chunked_length]
    omega
  · rw [htok, chat_chunks_eq_chunked]
    exact chunked_dropLast_length 40 (by omega) (pyStrip raw)
  · intro hempty
    rw [chat_stream_events_of_resp200 backend prompt model raw hok, hempty]
    rfl

/-- C10, witness: a reply of pure whitespace trims to the empty string, the
stream then carrying zero token events and still ending `done`, `end`. -/
theorem c10_token_count_witness :
    (tokenPieces (chat_stream_events (fun _ => .resp 200 (some "  ".toList))
        "p".toList "m".toList)).length = ((pyStrip "  ".toList).length + 39) / 40 ∧
    (∀ p ∈ (tokenPieces (chat_stream_events (fun _ => .resp 200 (some "  ".toList))
        "p".toList "m".toList)).dropLast, p.length = 40) ∧
    (pyStrip "  ".toList = [] →
      chat_stream_events (fun _ => .resp 200 (some "  ".toList)) "p".toList "m".toList
        = [.start, .done, .endEv "complete".toList]) :=
  c10_token_count (fun _ => .resp 200 (some "  ".toList)) "p".toList "m".toList
    "  ".toList rfl

/-! ## Claim C2 -/

/-- The event order asserted by C2: on failure `start`, `error`, `end` with
status `"error"`; on success `start`, one or MORE `token` events, `done`,
`end` with status `"complete"`. -/
def claimedStreamOrder (evs : List SEvent) : Prop :=
  (∃ e, evs = [.start, .errorEv e, .endEv "error".toList]) ∨
  (∃ toks : List (List Char), toks ≠ [] ∧
    evs = .start :: toks.map .token ++ [.done, .endEv "complete".toList])

/-- C2, counterexample.  A reply of pure whitespace trims to the empty
string, so the success branch emits ZERO token events — the sequence
`start`, `done`, `end` matches neither of the two orders the claim allows
(it demands one or more `token` events on success). -/
theorem c2_order_counterexample :
    ¬ claimedStreamOrder (chat_stream_events
        (fun _ => .resp 200 (some "  ".toList)) "p".toList "m".toList) := by
  have hev : chat_stream_events (fun _ => .resp 200 (some "  ".toList))
      "p".toList "m".toList = [.start, .done, .endEv "complete".toList] := by
    decide
  rw [claimedStreamOrder, hev]
  rintro (⟨e, he⟩ | ⟨toks, hne, ht⟩)
  · simp at he
  · cases toks with
    | nil => exact hne rfl
    | cons t ts => simp at ht

/-- C2, amended: the emitted event sequence is tied to the backend call's
outcome — when the call fails with cause `e`, the stream is exactly `start`,
`error` (carrying `e`), `end` (status `"error"`), so no `token` event ever
follows a failure; and when the call succeeds with trimmed reply `text`, the
stream is exactly `start`, ZERO or more `token` events (one per 40-character
chunk of `text`), `done`, `end` (status `"complete"`).  No other event order
occurs. -/
theorem c2_order_amended (backend : ChatRequest → BackendOutcome)
    (prompt model : List Char) :
    (∃ e, lmReply backend prompt model = .error e ∧
      chat_stream_events backend prompt model
        = [.start, .errorEv e, .endEv "error".toList]) ∨
    (∃ text, lmReply backend prompt model = .ok text ∧
      chat_stream_events backend prompt model
        = .start :: (chat_chunks text).map .token
            ++ [.done, .endEv "complete".toList]) := by
  cases hr : lmReply backend prompt model with
  | error e =>
      refine Or.inl ⟨e, hr ▸ rfl, ?_⟩
      unfold chat_stream_events
      rw [hr]
  | ok text =>
      refine Or.inr ⟨text, hr ▸ rfl, ?_⟩
      unfold chat_stream_events
      rw [hr]
      rfl

/-! ## Claim C3 -/

/-- C3: `/chat` performs exactly one upstream call, whose payload carries
the prompt as the sole (user) message, non-streaming, temperature `0.2`;
and it either returns the success record
`{provider := "lmstudio", model, text}` with `text` the trimmed first-choice
content of that one call's 2xx response, or fails with a single
`HTTPException(500, ...)` carrying the cause — never both. -/
theorem c3_chat_one_call_or_error (backend : ChatRequest → BackendOutcome)
    (prompt model : List Char) :
    (chat backend prompt model).2 = [mkChatRequest prompt model] ∧
    (mkChatRequest prompt model).messages
        = [{ role := "user".toList, content := prompt }] ∧
    (mkChatRequest prompt model).stream = false ∧
    (mkChatRequest prompt model).temperature = 2/10 ∧
    Xor'
      (∃ s c, backend (mkChatRequest prompt model) = .resp s (some c) ∧
        200 ≤ s ∧ s < 300 ∧
        (chat backend prompt model).1
          = .ok { provider := "lmstudio".toList, model := model, text := pyStrip c })
      (∃ e, (chat backend prompt model).1 = .httpError 500 e) := by
  refine ⟨rfl, rfl, rfl, rfl, ?_⟩
  cases hbk : backend (mkChatRequest prompt model) with
  | exc m =>
      have hres : (chat backend prompt model).1 = .httpError 500 (.transport m) := by
        unfold chat lmReply
        rw [hbk]
      refine Or.inr ⟨⟨.transport m, hres⟩, ?_⟩
      rintro ⟨s, c, hsc, _, _, _⟩
      cases hsc
  | resp s content =>
      by_cases h2 : 200 ≤ s ∧ s < 300
      · cases content with
        | some c =>
            have hres : (chat backend prompt model).1
                = .ok { provider := "lmstudio".toList, model := model,
                        text := pyStrip c } := by
              unfold chat lmReply
              rw [hbk]
              dsimp only
              rw [if_pos h2]
            refine Or.inl ⟨⟨s, c, rfl, h2.1, h2.2, hres⟩, ?_⟩
            rintro ⟨e, he⟩
            rw [hres] at he
            cases he
        | none =>
            have hres : (chat backend prompt model).1 = .httpError 500 .malformed := by
              unfold chat lmReply
              rw [hbk]
              dsimp only
              rw [if_pos h2]
            refine Or.inr ⟨⟨.malformed, hres⟩, ?_⟩
            rintro ⟨s', c', hsc, _, _, _⟩
            cases hsc
      · have hres : (chat backend prompt model).1
            = .httpError 500 (.httpStatus s) := by
          unfold chat lmReply
          rw [hbk]
          dsimp only
          rw [if_neg h2]
        refine Or.inr ⟨⟨.httpStatus s, hres⟩, ?_⟩
        rintro ⟨s', c', hsc, hlo, hhi, _⟩
        cases hsc
        exact h2 ⟨hlo, hhi⟩

/-! ## Claim C6 -/

/-- C6: `/health` is a total function of the probe outcome and the current
configuration state — it never raises.  The chat backend is reported
reachable exactly when the probe returned HTTP 200, synthesis readiness
holds exactly when the Piper binary was resolved, a voice path was
configured and that path exists on disk at call time, and transcription
readiness is the constant `true`. -/
theorem c6_health_report (probe : ProbeOutcome) (cfg : PiperCfg)
    (voiceExists : Bool) :
    ((health probe cfg voiceExists).lm_ok = true ↔ probe = .resp 200) ∧
    (health probe cfg voiceExists).whisper_ok = true ∧
    ((health probe cfg voiceExists).piper_ok = true ↔
      cfg.bin.isSome = true ∧ cfg.voice ≠ [] ∧ voiceExists = true) := by
  refine ⟨?_, rfl, ?_⟩
  · cases probe with
    | resp s =>
        simp only [health]
        constructor
        · intro h
          have : s = 200 := by simpa using h
          rw [this]
        · intro h
          cases h
          simp
    | exc m =>
        simp [health]
  · simp only [health, piperOk, Bool.and_eq_true, Bool.not_eq_true']
    constructor
    · rintro ⟨⟨hbin, hvoice⟩, hex⟩
      refine ⟨hbin, ?_, hex⟩
      simpa [List.isEmpty_iff] using hvoice
    · rintro ⟨hbin, hvoice, hex⟩
      refine ⟨⟨hbin, ?_⟩, hex⟩
      simpa [List.isEmpty_iff] using hvoice

/-! ## Claim C4 -/

/-- C4, counterexample.  The claim asserts that with Piper unconfigured both
`/tts` and `/voice-chat` are rejected before ANY external engine is invoked.
`/voice-chat` refutes it: with no Piper binary but working transcription and
chat, the recorded engine calls are the transcription and the chat call —
both run before the 501 rejection (`server.py` line 211 sits after lines
191 and 203). -/
theorem c4_precheck_counterexample :
    (voice_chat { bin := none, voice := [] } false
        (.ok ["hi".toList] "en".toList 1)
        (fun _ => .resp 200 (some "yo".toList)) "m".toList
        (fun _ => .ok [])).2
      = [.sttCall, .chatCall "hi".toList] ∧
    (voice_chat { bin := none, voice := [] } false
        (.ok ["hi".toList] "en".toList 1)
        (fun _ => .resp 200 (some "yo".toList)) "m".toList
        (fun _ => .ok [])).1 = .notConfigured := by
  constructor <;> rfl

/-- C4, amended: the readiness test is re-evaluated from the per-request
disk state, and when it fails `/tts` is rejected with 501 before any engine
call, while `/voice-chat` never invokes the synthesizer and — its
transcription and chat stages having succeeded — is rejected with 501 only
after those two engine calls have already been made. -/
theorem c4_precheck_amended (cfg : PiperCfg) (voiceExists : Bool)
    (text model : List Char) (synth : List Char → SynthOutcome)
    (sttE : TranscribeOutcome) (backend : ChatRequest → BackendOutcome)
    (h : piperOk cfg voiceExists = false) :
    tts cfg voiceExists text synth = (.notConfigured, []) ∧
    (∀ t, EngineCall.synthCall t
        ∉ (voice_chat cfg voiceExists sttE backend model synth).2) ∧
    (∀ segs lang dur reply, sttE = .ok segs lang dur →
      lmReply backend (pyStrip segs.flatten) model = .ok reply →
      voice_chat cfg voiceExists sttE backend model synth
        = (.notConfigured, [.sttCall, .chatCall (pyStrip segs.flatten)])) := by
  have hni : ¬ piperOk cfg voiceExists = true := by rw [h]; exact Bool.false_ne_true
  refine ⟨?_, ?_, ?_⟩
  · unfold tts
    rw [if_neg hni]
  · intro t
    cases sttE with
    | exc m => simp [voice_chat]
    | ok segs lang dur =>
        cases hr : lmReply backend (pyStrip segs.flatten) model with
        | error e => simp [voice_chat, hr]
        | ok reply => simp [voice_chat, hr, hni]
  · rintro segs lang dur reply rfl hr
    unfold voice_chat
    dsimp only
    rw [hr]
    dsimp only
    rw [if_neg hni]

/-- C4, witness: unconfigured Piper with successful transcription and chat. -/
theorem c4_precheck_witness :
    tts { bin := none, voice := [] } false "hello".toList (fun _ => .ok [])
      = (.notConfigured, []) ∧
    (∀ t, EngineCall.synthCall t
        ∉ (voice_chat { bin := none, voice := [] } false
            (.ok ["hi".toList] "en".toList 1)
            (fun _ => .resp 200 (some "yo".toList)) "m".toList
            (fun _ => .ok [])).2) ∧
    (∀ segs lang dur reply,
      (.ok ["hi".toList] "en".toList 1 : TranscribeOutcome) = .ok segs lang dur →
      lmReply (fun _ => .resp 200 (some "yo".toList)) (pyStrip segs.flatten)
        "m".toList = .ok reply →
      voice_chat { bin := none, voice := [] } false
          (.ok ["hi".toList] "en".toList 1)
          (fun _ => .resp 200 (some "yo".toList)) "m".toList (fun _ => .ok [])
        = (.notConfigured, [.sttCall, .chatCall (pyStrip segs.flatten)])) :=
  c4_precheck_amended { bin := none, voice := [] } false "hello".toList
    "m".toList (fun _ => .ok []) (.ok ["hi".toList] "en".toList 1)
    (fun _ => .resp 200 (some "yo".toList)) rfl

/-! ## Claim C5 -/

/-- C5: in `/voice-chat` the stages run strictly in the order transcription,
chat, synthesis (the recorded calls are always a prefix of that sequence); a
failing stage leaves exactly the calls up to itself and the result carries
only that stage's error; and a successful run returns the reply text, the
`audio/wav` mime type, the base64-encoded synthesizer output and the
original transcript. -/
theorem c5_pipeline_order (cfg : PiperCfg) (voiceExists : Bool)
    (sttE : TranscribeOutcome) (backend : ChatRequest → BackendOutcome)
    (model : List Char) (synth : List Char → SynthOutcome) :
    ((voice_chat cfg voiceExists sttE backend model synth).2 = [.sttCall] ∨
     (∃ p, (voice_chat cfg voiceExists sttE backend model synth).2
        = [.sttCall, .chatCall p]) ∨
     (∃ p r, (voice_chat cfg voiceExists sttE backend model synth).2
        = [.sttCall, .chatCall p, .synthCall r])) ∧
    ((∃ m, (voice_chat cfg voiceExists sttE backend model synth).1 = .sttError m) →
      (voice_chat cfg voiceExists sttE backend model synth).2 = [.sttCall]) ∧
    ((∃ e, (voice_chat cfg voiceExists sttE backend model synth).1 = .chatError e) →
      ∃ p, (voice_chat cfg voiceExists sttE backend model synth).2
        = [.sttCall, .chatCall p]) ∧
    ((∃ m, (voice_chat cfg voiceExists sttE backend model synth).1 = .synthError m) →
      ∃ p r, (voice_chat cfg voiceExists sttE backend model synth).2
        = [.sttCall, .chatCall p, .synthCall r]) ∧
    (∀ out, (voice_chat cfg voiceExists sttE backend model synth).1 = .success out →
      ∃ segs lang dur wav,
        sttE = .ok segs lang dur ∧
        out.prompt = pyStrip segs.flatten ∧
        lmReply backend out.prompt model = .ok out.text ∧
        synth out.text = .ok wav ∧
        out.mime = "audio/wav".toList ∧
        out.audio_base64 = b64encode wav ∧
        (voice_chat cfg voiceExists sttE backend model synth).2
          = [.sttCall, .chatCall out.prompt, .synthCall out.text]) := by
  cases sttE with
  | exc m =>
      have hvc : voice_chat cfg voiceExists (.exc m) backend model synth
          = (.sttError m, [.sttCall]) := rfl
      rw [hvc]
      refine ⟨Or.inl rfl, fun _ => rfl, ?_, ?_, ?_⟩
      · rintro ⟨e, he⟩; cases he
      · rintro ⟨m', hm⟩; cases hm
      · intro out hout; cases hout
  | ok segs lang dur =>
      cases hr : lmReply backend (pyStrip segs.flatten) model with
      | error e =>
          have hvc : voice_chat cfg voiceExists (.ok segs lang dur) backend model synth
              = (.chatError e, [.sttCall, .chatCall (pyStrip segs.flatten)]) := by
            unfold voice_chat
            dsimp only
            rw [hr]
          rw [hvc]
          refine ⟨Or.inr (Or.inl ⟨_, rfl⟩), ?_, fun _ => ⟨_, rfl⟩, ?_, ?_⟩
          · rintro ⟨m', hm⟩; cases hm
          · rintro ⟨m', hm⟩; cases hm
          · intro out hout; cases hout
      | ok reply =>
          by_cases hp : piperOk cfg voiceExists
          · cases hs : synth reply with
            | fail m =>
                have hvc : voice_chat cfg voiceExists (.ok segs lang dur) backend
                    model synth = (.synthError m,
                      [.sttCall, .chatCall (pyStrip segs.flatten), .synthCall reply]) := by
                  unfold voice_chat
                  dsimp only
                  rw [hr]
                  dsimp only
                  rw [if_pos hp, hs]
                rw [hvc]
                refine ⟨Or.inr (Or.inr ⟨_, _, rfl⟩), ?_, ?_, fun _ => ⟨_, _, rfl⟩, ?_⟩
                · rintro ⟨m', hm⟩; cases hm
                · rintro ⟨e, he⟩; cases he
                · intro out hout; cases hout
            | ok wav =>
                have hvc : voice_chat cfg voiceExists (.ok segs lang dur) backend
                    model synth
                    = (.success
                        { text := reply, mime := "audio/wav".toList,
                          audio_base64 := b64encode wav,
                          prompt := pyStrip segs.flatten },
                       [.sttCall, .chatCall (pyStrip segs.flatten), .synthCall reply]) := by
                  unfold voice_chat
                  dsimp only
                  rw [hr]
                  dsimp only
                  rw [if_pos hp, hs]
                rw [hvc]
                refine ⟨Or.inr (Or.inr ⟨_, _, rfl⟩), ?_, ?_, ?_, ?_⟩
                · rintro ⟨m', hm⟩; cases hm
                · rintro ⟨e, he⟩; cases he
                · rintro ⟨m', hm⟩; cases hm
                · intro out hout
                  cases hout
                  exact ⟨segs, lang, dur, wav, rfl, rfl, hr, hs, rfl, rfl, rfl⟩
          · have hni : ¬ piperOk cfg voiceExists = true := hp
            have hvc : voice_chat cfg voiceExists (.ok segs lang dur) backend
                model synth = (.notConfigured,
                  [.sttCall, .chatCall (pyStrip segs.flatten)]) := by
              unfold voice_chat
              dsimp only
              rw [hr]
              dsimp only
              rw [if_neg hni]
            rw [hvc]
            refine ⟨Or.inr (Or.inl ⟨_, rfl⟩), ?_, ?_, ?_, ?_⟩
            · rintro ⟨m', hm⟩; cases hm
            · rintro ⟨e, he⟩; cases he
            · rintro ⟨m', hm⟩; cases hm
            · intro out hout; cases hout

/-- C5, witness: aborting at the first stage — a failing transcription
leaves exactly one recorded engine call. -/
theorem c5_pipeline_witness :
    (voice_chat { bin := some "piper".toList, voice := "v.onnx".toList } true
        (.exc "boom".toList) (fun _ => .resp 200 (some "yo".toList))
        "m".toList (fun _ => .ok [])).2 = [.sttCall] :=
  (c5_pipeline_order { bin := some "piper".toList, voice := "v.onnx".toList }
      true (.exc "boom".toList) (fun _ => .resp 200 (some "yo".toList))
      "m".toList (fun _ => .ok [])).2.1 ⟨"boom".toList, rfl⟩

/-! ## Claim C7 -/

/-- C7, counterexample.  The claim asserts the staged temp file is deleted
on EVERY exit path of `/stt`.  It fails when the engine call raises:
`os.unlink(path)` at `server.py` line 141 sits after the `transcribe` call
and is never reached on the exception path, so the file survives. -/
theorem c7_cleanup_counterexample :
    ¬ ((stt { filename := "a.wav".toList, content := [1, 2] } "tmp7".toList
        (.exc "engine crashed".toList)).2.deleted = true) := by
  decide

/-- C7, amended: the upload is staged to a temp file whose name is the
per-request fresh base followed by the upload's filename (so the original
extension is preserved, and distinct request bases give distinct paths),
and the file is deleted iff the engine call returns — on the engine's
exception path it is not deleted. -/
theorem c7_cleanup_amended (u : Upload) (nonce : List Char)
    (engine : TranscribeOutcome) :
    u.filename <:+ (stt u nonce engine).2.tempPath ∧
    (∀ nonce2, nonce ≠ nonce2 →
      (stt u nonce engine).2.tempPath ≠ (stt u nonce2 engine).2.tempPath) ∧
    ((stt u nonce engine).2.deleted = true ↔
      ∃ segs lang dur, engine = .ok segs lang dur) := by
  have hpath : ∀ e : TranscribeOutcome, (stt u nonce e).2.tempPath
      = nonce ++ u.filename := by
    intro e
    cases e <;> rfl
  refine ⟨?_, ?_, ?_⟩
  · rw [hpath]
    exact ⟨nonce, rfl⟩
  · intro nonce2 hne
    rw [hpath]
    have hpath2 : (stt u nonce2 engine).2.tempPath = nonce2 ++ u.filename := by
      cases engine <;> rfl
    rw [hpath2]
    intro hcontra
    exact hne (List.append_cancel_right hcontra)
  · cases engine with
    | exc m =>
        constructor
        · intro h; cases h
        · rintro ⟨segs, lang, dur, h⟩; cases h
    | ok segs lang dur =>
        exact ⟨fun _ => ⟨segs, lang, dur, rfl⟩, fun _ => rfl⟩

/-- C7, witness: on a successful engine call the temp path carries the
upload's filename as suffix, distinct bases give distinct paths, and the
file is deleted. -/
theorem c7_cleanup_witness :
    "a.wav".toList <:+ (stt { filename := "a.wav".toList, content := [1, 2] }
        "tmpA".toList (.ok ["hi".toList] "en".toList 1)).2.tempPath ∧
    (∀ nonce2, "tmpA".toList ≠ nonce2 →
      (stt { filename := "a.wav".toList, content := [1, 2] } "tmpA".toList
          (.ok ["hi".toList] "en".toList 1)).2.tempPath ≠
        (stt { filename := "a.wav".toList, content := [1, 2] } nonce2
          (.ok ["hi".toList] "en".toList 1)).2.tempPath) ∧
    ((stt { filename := "a.wav".toList, content := [1, 2] } "tmpA".toList
        (.ok ["hi".toList] "en".toList 1)).2.deleted = true ↔
      ∃ segs lang dur,
        (.ok ["hi".toList] "en".toList 1 : TranscribeOutcome) = .ok segs lang dur) :=
  c7_cleanup_amended { filename := "a.wav".toList, content := [1, 2] }
    "tmpA".toList (.ok ["hi".toList] "en".toList 1)

/-! ## Claim C8 -/

/-- C8: the `/tts` streaming generator hands the synthesizer's file to the
consumer as 8192-byte chunks in order — their concatenation is exactly the
file's content, every chunk is nonempty and at most 8192 bytes, every
non-final chunk is exactly 8192 bytes — and the single `os.unlink` is the
last step of the generator, after every chunk has been handed over. -/
theorem c8_wav_stream (content : List Nat) :
    (yieldsOf (wav_iter content)).flatten = content ∧
    (∀ b ∈ yieldsOf (wav_iter content), b.length ≤ 8192 ∧ b ≠ []) ∧
    (∀ b ∈ (yieldsOf (wav_iter content)).dropLast, b.length = 8192) ∧
    (wav_iter content).getLast? = some .unlink ∧
    (∀ s ∈ (wav_iter content).dropLast, ∃ b, s = .yieldChunk b) := by
  have hy : yieldsOf (wav_iter content) = chunked 8192 content := by
    unfold yieldsOf wav_iter
    rw [List.filterMap_append, List.filterMap_map]
    have hcomp :
        ((fun s =>
          match s with
          | StreamStep.yieldChunk b => some b
          | StreamStep.unlink => none) ∘ StreamStep.yieldChunk)
        = (some : List Nat → Option (List Nat)) := rfl
    rw [hcomp, List.filterMap_some]
    simp
  refine ⟨?_, ?_, ?_, ?_, ?_⟩
  · rw [hy]; exact chunked_flatten 8192 (by omega) content
  · rw [hy]
    intro b hb
    exact ⟨chunked_mem_length_le 8192 (by omega) content b hb,
      chunked_mem_ne_nil 8192 (by omega) content b hb⟩
  · rw [hy]; exact chunked_dropLast_length 8192 (by omega) content
  · unfold wav_iter; exact List.getLast?_concat _
  · unfold wav_iter
    rw [List.dropLast_concat]
    intro s hs
    obtain ⟨b, _, rfl⟩ := List.mem_map.mp hs
    exact ⟨b, rfl⟩

/-! ## Claim C9 -/

theorem decChar_encChar_fin : ∀ k : Fin 64, decChar (encChar k.val) = some k.val := by
  decide

theorem encChar_ne_pad_fin : ∀ k : Fin 64, encChar k.val ≠ '=' := by
  decide

theorem decChar_encChar (k : Nat) (h : k < 64) : decChar (encChar k) = some k :=
  decChar_encChar_fin ⟨k, h⟩

theorem encChar_ne_pad (k : Nat) (h : k < 64) : encChar k ≠ '=' :=
  encChar_ne_pad_fin ⟨k, h⟩

/-- C9: base64-encoding any byte sequence (in particular a synthesized WAV
file's content, as `/voice-chat` does before returning it) and decoding the
resulting string yields the original bytes unchanged. -/
theorem c9_base64_roundtrip : ∀ bs : List Nat, (∀ x ∈ bs, x < 256) →
    b64decode (b64encode bs) = some bs := by
  intro bs
  induction bs using b64encode.induct with
  | case1 => intro _; rfl
  | case2 a =>
      intro hb
      have ha : a < 256 := hb a (by simp)
      have h0 : decChar (encChar (a / 4)) = some (a / 4) :=
        decChar_encChar _ (by omega)
      have h1 : decChar (encChar (a % 4 * 16)) = some (a % 4 * 16) :=
        decChar_encChar _ (by omega)
      simp [b64encode, b64decode, h0, h1]
      omega
  | case3 a b =>
      intro hb
      have ha : a < 256 := hb a (by simp)
      have hbb : b < 256 := hb b (by simp)
      have h0 : decChar (encChar (a / 4)) = some (a / 4) :=
        decChar_encChar _ (by omega)
      have h1 : decChar (encChar (a % 4 * 16 + b / 16)) = some (a % 4 * 16 + b / 16) :=
        decChar_encChar _ (by omega)
      have h2 : decChar (encChar (b % 16 * 4)) = some (b % 16 * 4) :=
        decChar_encChar _ (by omega)
      have hne2 : ¬ (encChar (b % 16 * 4) = '=') := encChar_ne_pad _ (by omega)
      simp [b64encode, b64decode, h0, h1, h2, hne2]
      constructor
      · omega
      · omega
  | case4 a b c rest ih =>
      intro hb
      have ha : a < 256 := hb a (by simp)
      have hbb : b < 256 := hb b (by simp)
      have hc : c < 256 := hb c (by simp)
      have hrest : b64decode (b64encode rest) = some rest :=
        ih (fun x hx => hb x (by simp [hx]))
      have h0 : decChar (encChar (a / 4)) = some (a / 4) :=
        decChar_encChar _ (by omega)
      have h1 : decChar (encChar (a % 4 * 16 + b / 16)) = some (a % 4 * 16 + b / 16) :=
        decChar_encChar _ (by omega)
      have h2 : decChar (encChar (b % 16 * 4 + c / 64)) = some (b % 16 * 4 + c / 64) :=
        decChar_encChar _ (by omega)
      have h3 : decChar (encChar (c % 64)) = some (c % 64) :=
        decChar_encChar _ (by omega)
      have hne2 : ¬ (encChar (b % 16 * 4 + c / 64) = '=') := encChar_ne_pad _ (by omega)
      have hne3 : ¬ (encChar (c % 64) = '=') := encChar_ne_pad _ (by omega)
      simp [b64encode, b64decode, h0, h1, h2, h3, hne2, hne3, hrest]
      refine ⟨by omega, by omega, by omega⟩

/-- C9, witness at the byte sequence `[82, 73, 70, 70, 0, 255]`. -/
theorem c9_base64_roundtrip_witness :
    b64decode (b64encode [82, 73, 70, 70, 0, 255]) = some [82, 73, 70, 70, 0, 255] :=
  c9_base64_roundtrip [82, 73, 70, 70, 0, 255] (by decide)
